import Mathlib

/-!
Shallow embedding of the InfinityGamingPOS session lifecycle and billing
core: stations, sessions, payments, daily stats (storage.ts,
sessionController.ts), the cash-payment controller, the split-payment
modal state logic (SplitPaymentModal.tsx) and the M-Pesa confirmation
poll loop (PaymentModal).  Machine integers are modelled as Int/Nat,
JavaScript floating-point amounts as rationals, wall-clock instants as
milliseconds since epoch (Nat).
-/

namespace POS

/-- `station_status` enum from schema.ts. -/
inductive StationStatus
  | AVAILABLE | ACTIVE | MAINTENANCE
deriving DecidableEq, Repr

/-- `session_status` enum from schema.ts. -/
inductive SessionStatus
  | ACTIVE | COMPLETED | CANCELLED
deriving DecidableEq, Repr

/-- `session_type` enum from schema.ts. -/
inductive SessionType
  | HOURLY | FIXED
deriving DecidableEq, Repr

/-- `payment_method` enum from schema.ts. -/
inductive PaymentMethod
  | CASH | MPESA | PENDING
deriving DecidableEq, Repr

/-- `payment_status` enum from schema.ts. -/
inductive PaymentStatus
  | PENDING | COMPLETED | FAILED
deriving DecidableEq, Repr

/-- A row of the `stations` table (schema.ts): `ratePerHour` is a non-null
integer, `ratePerGame` is nullable. -/
structure Station where
  id : Nat
  status : StationStatus
  ratePerHour : Int
  ratePerGame : Option Int
  maintenanceReason : Option String
  maintenanceEta : Option String
deriving DecidableEq, Repr

/-- A row of the `sessions` table (schema.ts); times in ms since epoch,
`duration` in minutes, `totalAmount` in KSh. -/
structure Session where
  id : Nat
  stationId : Nat
  customerId : Nat
  sessionType : SessionType
  startTimeMs : Nat
  endTimeMs : Option Nat
  duration : Option Int
  status : SessionStatus
  totalAmount : Option Int
deriving DecidableEq, Repr

/-- A row of the `payments` table (schema.ts); `amount` is a `real`
column, modelled as a rational. -/
structure Payment where
  sessionId : Option Nat
  customerId : Option Nat
  amount : ℚ
  paymentMethod : PaymentMethod
  status : PaymentStatus
deriving DecidableEq, Repr

/-- A row of the `stats` table (schema.ts): one row per calendar date,
`totalRevenue` integer, `totalHours` double precision (rational here). -/
structure Stat where
  date : Nat
  totalRevenue : Int
  totalHours : ℚ
  activeStations : Int
  activeUsers : Int
deriving DecidableEq, Repr

/-- A row of the `customers` table (schema.ts). -/
structure Customer where
  id : Nat
  loyaltyPoints : Int
deriving DecidableEq, Repr

/-- The persistent state the handlers read and write, plus the wall clock
(`nowMs`, what `new Date()` returns) and the current calendar date key
(`today`, what `setHours(0,0,0,0)` normalises to). -/
structure World where
  stations : List Station
  sessions : List Session
  payments : List Payment
  stats : List Stat
  customers : List Customer
  nowMs : Nat
  today : Nat
deriving DecidableEq, Repr

/-- `storage.getStation`: first station row with the given id. -/
def getStation (w : World) (id : Nat) : Option Station :=
  w.stations.find? (fun st => st.id = id)

/-- `storage.getSession`: first session row with the given id. -/
def getSession (w : World) (id : Nat) : Option Session :=
  w.sessions.find? (fun s => s.id = id)

/-- Today's `stats` row, as selected by `where eq(stats.date, today)`. -/
def getTodayStat (w : World) : Option Stat :=
  w.stats.find? (fun st => st.date = w.today)

/-- JavaScript `Math.ceil` on an exact rational, via floor division. -/
def mathCeil (q : ℚ) : Int :=
  -((-q).num.fdiv ((-q).den : Int))

/-- JavaScript `Math.floor` on an exact rational, via floor division. -/
def mathFloor (q : ℚ) : Int :=
  q.num.fdiv ((q).den : Int)

/-- The charge computed by the `POST /:id/end` handler in
sessionController.ts:
`FIXED`  → `station.ratePerGame || 0`;
`HOURLY` → `Math.ceil(durationInHours * station.ratePerHour)` where
`durationInHours = (endTime - startTime) / 3600000`. -/
def computeCharge (ty : SessionType) (ratePerGame : Option Int)
    (ratePerHour : Int) (elapsedMs : Nat) : Int :=
  match ty with
  | .FIXED => ratePerGame.getD 0
  | .HOURLY => mathCeil (((elapsedMs : ℚ) / 3600000) * (ratePerHour : ℚ))

/-- The validated body of `POST /api/sessions` (`insertSessionSchema`):
id, status, endTime, totalAmount are omitted by the schema. -/
structure InsertSession where
  stationId : Nat
  customerId : Nat
  sessionType : SessionType
deriving DecidableEq, Repr

/-- Fresh serial id for an inserted session row. -/
def freshSessionId (w : World) : Nat :=
  (w.sessions.foldl (fun a s => Nat.max a s.id) 0) + 1

/-- `storage.createPayment`: inserts the payment row. -/
def createPaymentStore (w : World) (p : Payment) : World :=
  { w with payments := w.payments ++ [p] }

/-- `storage.createSession` (storage.ts): inserts the session row with
`status = ACTIVE` and `startTime = now` (schema default), sets the
station's status to `ACTIVE`, and bumps today's stats row —
`activeStations + 1`, `activeUsers + 1` when it exists, otherwise a new
row with those counters at 1 and revenue/hours at 0. -/
def createSessionStore (w : World) (ins : InsertSession) : World × Session :=
  let s : Session :=
    { id := freshSessionId w, stationId := ins.stationId
      customerId := ins.customerId, sessionType := ins.sessionType
      startTimeMs := w.nowMs, endTimeMs := none, duration := none
      status := .ACTIVE, totalAmount := none }
  let stations' := w.stations.map (fun st =>
    if st.id = ins.stationId then { st with status := .ACTIVE } else st)
  let stats' :=
    match getTodayStat w with
    | some ex => w.stats.map (fun t =>
        if t.date = w.today then
          { t with activeStations := ex.activeStations + 1
                   activeUsers := ex.activeUsers + 1 }
        else t)
    | none => w.stats ++ [{ date := w.today, totalRevenue := 0, totalHours := 0
                            activeStations := 1, activeUsers := 1 }]
  ({ w with sessions := w.sessions ++ [s], stations := stations', stats := stats' }, s)

/-- The `duration` written at close: `Math.floor((now - start) / 60000)`. -/
def endDurationMin (w : World) (s : Session) : Int :=
  ((w.nowMs : Int) - (s.startTimeMs : Int)).fdiv 60000

/-- The session row as rewritten by `storage.endSession`. -/
def endUpdatedSession (w : World) (s : Session) (totalAmount : Int) : Session :=
  { s with status := .COMPLETED, endTimeMs := some w.nowMs
           duration := some (endDurationMin w s), totalAmount := some totalAmount }

/-- `storage.endSession` (storage.ts): looks the session up (returning
`none` when absent), computes `duration = Math.floor((now - start)/60000)`,
marks the session `COMPLETED` with end time, duration and the given
total, sets the referenced station's status back to `AVAILABLE`
unconditionally, and — only when today's stats row exists — applies
`activeStations = max(0, ·-1)`, `activeUsers = max(0, ·-1)`,
`totalRevenue += totalAmount`, `totalHours += duration/60`. -/
def endSessionStore (w : World) (id : Nat) (totalAmount : Int) :
    World × Option Session :=
  match getSession w id with
  | none => (w, none)
  | some s =>
    let durationMin : Int := endDurationMin w s
    let updated : Session := endUpdatedSession w s totalAmount
    let sessions' := w.sessions.map (fun t => if t.id = id then updated else t)
    let stations' := w.stations.map (fun st =>
      if st.id = s.stationId then { st with status := .AVAILABLE } else st)
    let stats' :=
      match getTodayStat w with
      | some ex => w.stats.map (fun t =>
          if t.date = w.today then
            { t with activeStations := max 0 (ex.activeStations - 1)
                     activeUsers := max 0 (ex.activeUsers - 1)
                     totalRevenue := ex.totalRevenue + totalAmount
                     totalHours := ex.totalHours + (durationMin : ℚ) / 60 }
          else t)
      | none => w.stats
    ({ w with sessions := sessions', stations := stations', stats := stats' },
     some updated)

/-- Outcome of `POST /api/sessions` in sessionController.ts. -/
inductive StartResult
  | created (s : Session)
  | stationNotFound
  | stationUnavailable
deriving DecidableEq, Repr

/-- The `POST /api/sessions` handler (sessionController.ts): 404 when the
station is missing, 400 `Station is not available` when its status is not
`AVAILABLE` — both before any write — then `storage.createSession`. -/
def startSessionRoute (w : World) (req : InsertSession) : StartResult × World :=
  match getStation w req.stationId with
  | none => (.stationNotFound, w)
  | some st =>
    if st.status ≠ .AVAILABLE then (.stationUnavailable, w)
    else
      let (w', s) := createSessionStore w req
      (.created s, w')

/-- Outcome of `POST /api/sessions/:id/end` in sessionController.ts. -/
inductive EndResult
  | ended (s : Session)
  | sessionNotFound
  | sessionNotActive
  | stationNotFound
  | endFailed
deriving DecidableEq, Repr

/-- The `POST /api/sessions/:id/end` handler (sessionController.ts):
404 when the session is missing, 400 when it is not `ACTIVE`, 500 when
its station is missing; otherwise computes the charge with
`computeCharge`, calls `storage.endSession`, then inserts a `PENDING`
payment row for the computed amount.  The elapsed time is
`now - startTime` in ms (claims only concern `now ≥ startTime`). -/
def endSessionRoute (w : World) (id : Nat) : EndResult × World :=
  match getSession w id with
  | none => (.sessionNotFound, w)
  | some s =>
    if s.status ≠ .ACTIVE then (.sessionNotActive, w)
    else
      match getStation w s.stationId with
      | none => (.stationNotFound, w)
      | some st =>
        let total := computeCharge s.sessionType st.ratePerGame st.ratePerHour
          (w.nowMs - s.startTimeMs)
        let (w', r) := endSessionStore w id total
        match r with
        | none => (.endFailed, w')
        | some upd =>
          let w'' := createPaymentStore w'
            { sessionId := some id, customerId := some s.customerId
              amount := (total : ℚ), paymentMethod := .PENDING
              status := .PENDING }
          (.ended upd, w'')

/-- Outcome of `POST /api/stations/:id/maintenance`. -/
inductive MaintResult
  | ok
  | stationNotFound
deriving DecidableEq, Repr

/-- The `POST /api/stations/:id/maintenance` handler: sets the station's
status to `MAINTENANCE` (with reason and optional ETA) regardless of its
current status, via `storage.updateStation`. -/
def setMaintenanceRoute (w : World) (id : Nat) (reason : String)
    (eta : Option String) : MaintResult × World :=
  match getStation w id with
  | none => (.stationNotFound, w)
  | some _ =>
    (.ok, { w with stations := w.stations.map (fun st =>
      if st.id = id then
        { st with status := .MAINTENANCE, maintenanceReason := some reason
                  maintenanceEta := eta }
      else st) })

/-- `storage.awardLoyaltyPoints` (storage.ts): the body is a placeholder —
it logs and returns `{id: userId, pointsAwarded: points}` without touching
any customer row. -/
def awardLoyaltyPoints (w : World) (userId : Nat) (points : Int) :
    World × (Nat × Int) :=
  (w, (userId, points))

/-- Outcome of `POST /api/payments/cash`. -/
inductive CashResult
  | ok
  | sessionNotFound
deriving DecidableEq, Repr

/-- `processCashPayment` (cashPaymentController.ts): looks the session up
(404 when absent), inserts a `CASH`/`COMPLETED` payment row of the given
amount, and when a `userId` is supplied computes
`pointsToAward = Math.floor(amount / 100)` and calls
`storage.awardLoyaltyPoints` with it. -/
def processCashPayment (w : World) (transactionId : Nat) (amount : ℚ)
    (userId : Option Nat) : CashResult × World :=
  match getSession w transactionId with
  | none => (.sessionNotFound, w)
  | some _ =>
    let w' := createPaymentStore w
      { sessionId := some transactionId, customerId := none, amount := amount
        paymentMethod := .CASH, status := .COMPLETED }
    match userId with
    | some uid =>
      let pointsToAward := mathFloor (amount / 100)
      let (w'', _) := awardLoyaltyPoints w' uid pointsToAward
      (.ok, w'')
    | none => (.ok, w')

/-! ### Split-payment modal state (SplitPaymentModal.tsx) -/

/-- One entry of the modal's `splits` state array. -/
structure Split where
  amount : ℚ
  paid : Bool
  transactionId : Option Nat
deriving DecidableEq, Repr

/-- The modal's state: the fixed `totalAmount` prop and the `splits`
array. -/
structure SplitState where
  total : ℚ
  splits : List Split
deriving DecidableEq, Repr

/-- The modal's initial `useState`: a single unpaid split carrying the
whole total. -/
def initialSplits (total : ℚ) : SplitState :=
  { total := total, splits := [{ amount := total, paid := false, transactionId := none }] }

/-- `totalSplitAmount`: `splits.reduce((acc, split) => acc + split.amount, 0)`. -/
def totalSplitAmount (st : SplitState) : ℚ :=
  st.splits.foldl (fun acc sp => acc + sp.amount) 0

/-- `isBalanced`: `Math.abs(totalSplitAmount - totalAmount) < 0.01`. -/
def isBalanced (st : SplitState) : Bool :=
  decide (|totalSplitAmount st - st.total| < 1 / 100)

/-- The Pay button for part `i`: rendered only for an unpaid part with no
transaction yet, and `disabled` unless `isBalanced` (the
`isCreatingTransaction` transient is taken as false here). -/
def payPartEnabled (st : SplitState) (i : Nat) : Bool :=
  match st.splits.get? i with
  | none => false
  | some sp => !sp.paid && sp.transactionId = none && isBalanced st

/-- `addSplit`: refused once 5 parts exist; otherwise every existing part
— paid or not — has its amount overwritten with
`totalAmount / (splits.length + 1)` (the spread keeps only the `paid`
flag and `transactionId`), and a new unpaid part of the same amount is
appended. -/
def addSplit (st : SplitState) : SplitState :=
  if 5 ≤ st.splits.length then st
  else
    let newAmount := st.total / ((st.splits.length : ℚ) + 1)
    { st with splits :=
        (st.splits.map (fun sp => { sp with amount := newAmount })) ++
          [{ amount := newAmount, paid := false, transactionId := none }] }

/-- `removeSplit(index)`: refused with one part left or on a paid part;
otherwise the part is removed, and each remaining unpaid part is set to
`(totalAmount - Σ paid amounts) / #unpaid` (paid parts untouched). -/
def removeSplit (st : SplitState) (index : Nat) : SplitState :=
  if st.splits.length ≤ 1 then st
  else if ((st.splits.get? index).map Split.paid).getD false then st
  else
    let newSplits := st.splits.eraseIdx index
    let remainingAmount := st.total -
      newSplits.foldl (fun acc sp => acc + (if sp.paid then sp.amount else 0)) 0
    let unpaidCount := (newSplits.filter (fun sp => !sp.paid)).length
    if 0 < unpaidCount then
      { st with splits := newSplits.map (fun sp =>
          if sp.paid then sp
          else { sp with amount := remainingAmount / (unpaidCount : ℚ) }) }
    else { st with splits := newSplits }

/-- `updateSplitAmount(index, value)`: no-op on a paid part; otherwise
sets part `index` to `value` and every other unpaid part to
`max 0 ((totalAmount - (value + Σ other paid amounts)) / #other unpaid)`. -/
def updateSplitAmount (st : SplitState) (index : Nat) (value : ℚ) : SplitState :=
  match st.splits.get? index with
  | none => st
  | some sp =>
    if sp.paid then st
    else
      let splitsA := st.splits.set index { sp with amount := value }
      let others := splitsA.enum
      let unpaidOthersCount :=
        (others.filter (fun p => p.2.paid = false && p.1 ≠ index)).length
      let paidSumOthers := others.foldl
        (fun acc p => acc + (if p.1 = index ∨ p.2.paid = false then 0 else p.2.amount)) 0
      let remaining := st.total - (value + paidSumOthers)
      if 0 < unpaidOthersCount then
        let per := max 0 (remaining / (unpaidOthersCount : ℚ))
        { st with splits := others.map (fun p =>
            if p.2.paid = false && p.1 ≠ index then { p.2 with amount := per }
            else p.2) }
      else { st with splits := splitsA }

/-! ### M-Pesa confirmation poll (PaymentModal `handlePayment`) -/

/-- Status returned by `checkMpesaPaymentStatus`; a thrown error is
caught and the loop continues, so it behaves as `pending` here. -/
inductive MpesaPollStatus
  | pending | completed | failed
deriving DecidableEq, Repr

/-- Where the poll loop leaves the payment flow: `confirmed` (UI status
`completed`), `failedOut` (UI status `failed`), or `unknown` (timeout:
UI back to `idle` with a "Payment Status Unknown" toast). -/
inductive PollOutcome
  | confirmed | failedOut | unknown
deriving DecidableEq, Repr

/-- `maxStatusChecks` constant of the poll loop. -/
def maxStatusChecks : Nat := 5

/-- The `setInterval` period of the poll loop, in milliseconds. -/
def pollIntervalMs : Nat := 5000

/-- One `setInterval` tick and its successors: `statusChecks` is
incremented; past `maxStatusChecks` the interval is cleared with outcome
`unknown` and no further status check; otherwise `checkStatus` is called
(the tick's provider answer is `resp c`), stopping on `completed` or
`failed` and continuing on `pending`.  Returns the outcome and the
number of status checks performed.  Fuel is structural recursion room;
`runPoll` supplies enough for the bound to bite first. -/
def pollGo (resp : Nat → MpesaPollStatus) : Nat → Nat → PollOutcome × Nat
  | 0, _ => (.unknown, 0)
  | fuel + 1, statusChecks =>
    let c := statusChecks + 1
    if maxStatusChecks < c then (.unknown, 0)
    else
      match resp c with
      | .completed => (.confirmed, 1)
      | .failed => (.failedOut, 1)
      | .pending =>
        ((pollGo resp fuel c).1, (pollGo resp fuel c).2 + 1)

/-- The whole poll loop, started with `statusChecks = 0`. -/
def runPoll (resp : Nat → MpesaPollStatus) : PollOutcome × Nat :=
  pollGo resp (maxStatusChecks + 1) 0

/-! ### Shared helper lemmas -/

/-- `mathCeil` agrees with the mathematical ceiling on ℚ. -/
theorem mathCeil_eq_ceil (q : ℚ) : mathCeil q = ⌈q⌉ := by
  unfold mathCeil
  rw [Int.fdiv_eq_ediv _ (by positivity), ← Rat.floor_def, Int.floor_neg]
  ring

/-- `mathFloor` agrees with the mathematical floor on ℚ. -/
theorem mathFloor_eq_floor (q : ℚ) : mathFloor q = ⌊q⌋ := by
  unfold mathFloor
  rw [Int.fdiv_eq_ediv _ (by positivity), ← Rat.floor_def]

/-- `find?` after an update-in-place keyed by the same predicate. -/
theorem find?_map_update {α} (q : α → Prop) [DecidablePred q] (g : α → α)
    (hg : ∀ a, q a → q (g a)) :
    ∀ (l : List α) (s : α), l.find? (fun t => q t) = some s →
      (l.map (fun t => if q t then g t else t)).find? (fun t => q t) = some (g s)
  | [], s, h => by simp at h
  | a :: l, s, h => by
    by_cases hp : q a
    · rw [List.find?_cons_of_pos _ (by simpa using hp)] at h
      cases h
      simp only [List.map_cons, if_pos hp]
      exact List.find?_cons_of_pos _ (by simpa using hg a hp)
    · rw [List.find?_cons_of_neg _ (by simpa using hp)] at h
      simp only [List.map_cons, if_neg hp]
      rw [List.find?_cons_of_neg _ (by simpa using hp)]
      exact find?_map_update q g hg l s h

/-- Filtering after a map that fixes the kept elements and keeps the
dropped ones dropped is plain filtering. -/
theorem filter_map_preserve {α} (p : α → Bool) (f : α → α)
    (h1 : ∀ x, p x = true → f x = x) (h2 : ∀ x, p x = false → p (f x) = false) :
    ∀ l : List α, (l.map f).filter p = l.filter p
  | [] => rfl
  | a :: l => by
    by_cases hp : p a = true
    · simp [List.filter_cons, hp, h1 a hp, filter_map_preserve p f h1 h2 l]
    · have hpa : p a = false := by simpa using hp
      simp [List.filter_cons, hpa, h2 a hpa, filter_map_preserve p f h1 h2 l]

/-- Erasing an element that fails the filter predicate leaves the
filtered list unchanged. -/
theorem filter_eraseIdx_not {α} (p : α → Bool) :
    ∀ (l : List α) (i : Nat) (h : i < l.length),
      p (l.get ⟨i, h⟩) = false → (l.eraseIdx i).filter p = l.filter p
  | [], i, h, _ => by simp at h
  | a :: l, 0, _, hp => by
    simp only [List.get] at hp
    simp [List.eraseIdx, List.filter_cons, hp]
  | a :: l, i + 1, h, hp => by
    simp only [List.get] at hp
    have ih := filter_eraseIdx_not p l i (by simpa using Nat.lt_of_succ_lt_succ h) hp
    simp [List.eraseIdx, List.filter_cons, ih]

/-! ### Poll-loop lemmas -/

/-- The number of checks `pollGo` performs from count `c` never exceeds
`maxStatusChecks - c`. -/
theorem pollGo_count_le (resp : Nat → MpesaPollStatus) :
    ∀ fuel c, (pollGo resp fuel c).2 ≤ maxStatusChecks - c
  | 0, c => by simp [pollGo]
  | fuel + 1, c => by
    simp only [pollGo]
    by_cases h : maxStatusChecks < c + 1
    · simp [h]
    · rw [if_neg h]
      cases hr : resp (c + 1) with
      | completed =>
        show (1 : ℕ) ≤ maxStatusChecks - c
        simp only [maxStatusChecks] at h ⊢
        omega
      | failed =>
        show (1 : ℕ) ≤ maxStatusChecks - c
        simp only [maxStatusChecks] at h ⊢
        omega
      | pending =>
        show (pollGo resp fuel (c + 1)).2 + 1 ≤ maxStatusChecks - c
        have := pollGo_count_le resp fuel (c + 1)
        simp only [maxStatusChecks] at this h ⊢
        omega

/-- `pollGo` only reaches the confirmed outcome on an explicit
`completed` answer from the provider at some checked tick. -/
theorem pollGo_confirmed (resp : Nat → MpesaPollStatus) :
    ∀ fuel c, (pollGo resp fuel c).1 = .confirmed →
      ∃ k, c + 1 ≤ k ∧ k ≤ maxStatusChecks ∧ resp k = .completed
  | 0, c, h => by simp [pollGo] at h
  | fuel + 1, c, h => by
    simp only [pollGo] at h
    by_cases hb : maxStatusChecks < c + 1
    · rw [if_pos hb] at h; simp at h
    · rw [if_neg hb] at h
      cases hr : resp (c + 1) with
      | completed => exact ⟨c + 1, le_refl _, by omega, hr⟩
      | failed => rw [hr] at h; simp at h
      | pending =>
        rw [hr] at h
        simp only [] at h
        obtain ⟨k, hk1, hk2, hk3⟩ := pollGo_confirmed resp fuel (c + 1) h
        exact ⟨k, by omega, hk2, hk3⟩

/-- C7: the M-Pesa confirmation poll runs on a fixed 5000 ms interval,
performs at most 5 status checks, on a run where every check comes back
pending it stops after exactly 5 checks with the unknown/manual outcome,
and the flow reaches the completed state only if the provider explicitly
returned `completed` at one of the (at most 5) checked ticks. -/
theorem mpesa_poll_bounded_and_explicit (resp : Nat → MpesaPollStatus) :
    pollIntervalMs = 5000 ∧
    (runPoll resp).2 ≤ 5 ∧
    ((∀ k, resp k = .pending) → runPoll resp = (.unknown, 5)) ∧
    ((runPoll resp).1 = .confirmed →
      ∃ k, 1 ≤ k ∧ k ≤ 5 ∧ resp k = .completed) := by
  refine ⟨rfl, ?_, ?_, ?_⟩
  · simpa [maxStatusChecks] using pollGo_count_le resp (maxStatusChecks + 1) 0
  · intro h
    simp [runPoll, pollGo, h, maxStatusChecks]
  · intro h
    simpa [maxStatusChecks] using pollGo_confirmed resp (maxStatusChecks + 1) 0 h

/-- Witness for C7: with a provider that always answers pending, the poll
performs exactly 5 checks and falls back to the unknown/manual state. -/
theorem mpesa_poll_bounded_and_explicit_witness :
    runPoll (fun _ => MpesaPollStatus.pending) = (PollOutcome.unknown, 5) :=
  (mpesa_poll_bounded_and_explicit (fun _ => .pending)).2.2.1 (fun _ => rfl)

/-! ### Split-payment theorems -/

/-- C5: a part's Pay action is available only when the sum of all part
amounts (paid and unpaid) is within 0.01 of the original total, and
whenever the sums differ by 0.01 or more every part's Pay action is
refused. -/
theorem split_pay_requires_balance (st : SplitState) (i : Nat) :
    (payPartEnabled st i = true → |totalSplitAmount st - st.total| < 1 / 100) ∧
    (1 / 100 ≤ |totalSplitAmount st - st.total| → payPartEnabled st i = false) := by
  constructor
  · intro h
    unfold payPartEnabled at h
    cases hg : st.splits.get? i with
    | none => rw [hg] at h; simp at h
    | some sp =>
      rw [hg] at h
      simp only [Bool.and_eq_true, isBalanced, decide_eq_true_eq] at h
      exact h.2
  · intro h
    unfold payPartEnabled
    cases hg : st.splits.get? i with
    | none => rfl
    | some sp =>
      simp only [Bool.and_eq_false_iff, isBalanced]
      right
      simpa using not_lt.mpr h

/-- Witness for C5: with one unpaid part of 100 against a total of 900
the sums differ by 800 ≥ 0.01, and the Pay action is refused. -/
theorem split_pay_requires_balance_witness :
    payPartEnabled ⟨900, [⟨100, false, none⟩]⟩ 0 = false :=
  (split_pay_requires_balance ⟨900, [⟨100, false, none⟩]⟩ 0).2 (by
    norm_num [totalSplitAmount])

/-- Counterexample to C6 as stated: adding a split to a configuration
holding a paid part of 500 (total 900) overwrites the paid part's amount
with 900 / 3 = 300, so paid amounts are not left unchanged by the
add-split operation. -/
theorem addSplit_changes_paid_amount :
    ((⟨900, [⟨500, true, none⟩, ⟨400, false, none⟩]⟩ : SplitState).splits.get? 0).map
        Split.amount = some 500 ∧
    ((addSplit ⟨900, [⟨500, true, none⟩, ⟨400, false, none⟩]⟩).splits.get? 0).map
        Split.amount = some 300 ∧
    ((addSplit ⟨900, [⟨500, true, none⟩, ⟨400, false, none⟩]⟩).splits.get? 0).map
        Split.paid = some true ∧
    (500 : ℚ) ≠ 300 := by
  refine ⟨rfl, ?_, ?_, by norm_num⟩ <;> norm_num [addSplit]

/-- C6 amended: the remove-split operation freezes paid parts — the list
of paid parts is exactly the original one — and sets every remaining
unpaid part to the remaining unpaid total (total minus the frozen paid
amounts) divided evenly among the unpaid parts; the add-split operation,
by contrast, overwrites the amount of every part, paid ones included,
with `total / (previous count + 1)`. -/
theorem split_redistribution (st : SplitState) (i : Nat)
    (hlen : 1 < st.splits.length) (hi : i < st.splits.length)
    (hunpaid : (st.splits.get ⟨i, hi⟩).paid = false) :
    ((removeSplit st i).splits.filter (fun sp => sp.paid) =
      st.splits.filter (fun sp => sp.paid)) ∧
    (∀ sp ∈ (removeSplit st i).splits, sp.paid = false →
      sp.amount = (st.total -
          (st.splits.eraseIdx i).foldl
            (fun acc q => acc + (if q.paid then q.amount else 0)) 0) /
        ((((st.splits.eraseIdx i).filter (fun q => !q.paid)).length : ℚ))) ∧
    (st.splits.length < 5 →
      ∀ sp ∈ (addSplit st).splits,
        sp.amount = st.total / ((st.splits.length : ℚ) + 1)) := by
  have hguard1 : ¬ st.splits.length ≤ 1 := by omega
  have hget : st.splits.get? i = some (st.splits.get ⟨i, hi⟩) := List.get?_eq_get hi
  have hguard2 : ¬ (((st.splits.get? i).map Split.paid).getD false = true) := by
    rw [hget]; simpa using hunpaid
  have herase : (st.splits.eraseIdx i).filter (fun sp => sp.paid) =
      st.splits.filter (fun sp => sp.paid) :=
    filter_eraseIdx_not _ st.splits i hi (by simpa using hunpaid)
  refine ⟨?_, ?_, ?_⟩
  · rw [removeSplit, if_neg hguard1, if_neg hguard2]
    by_cases hcnt :
        0 < ((st.splits.eraseIdx i).filter (fun sp => !sp.paid)).length
    · rw [if_pos hcnt]
      refine Eq.trans (filter_map_preserve _ _ ?_ ?_ _) herase
      · intro x hx; simp [hx]
      · intro x hx; simp [hx]
    · rw [if_neg hcnt]
      exact herase
  · intro sp hsp hup
    rw [removeSplit, if_neg hguard1, if_neg hguard2] at hsp
    by_cases hcnt :
        0 < ((st.splits.eraseIdx i).filter (fun sp => !sp.paid)).length
    · rw [if_pos hcnt] at hsp
      simp only [List.mem_map] at hsp
      obtain ⟨a, _, rfl⟩ := hsp
      by_cases hpa : a.paid = true
      · rw [if_pos hpa] at hup ⊢
        rw [hup] at hpa
        exact absurd hpa (by simp)
      · have hpa' : a.paid = false := by simpa using hpa
        rw [if_neg hpa]
    · rw [if_neg hcnt] at hsp
      exfalso
      have : sp ∈ (st.splits.eraseIdx i).filter (fun q => !q.paid) :=
        List.mem_filter.mpr ⟨hsp, by simp [hup]⟩
      have := List.length_pos.mpr (List.ne_nil_of_mem this)
      omega
  · intro hlt sp hsp
    rw [addSplit, if_neg (by omega)] at hsp
    rcases List.mem_append.mp hsp with hsp | hsp
    · simp only [List.mem_map] at hsp
      obtain ⟨a, _, rfl⟩ := hsp
      rfl
    · simp only [List.mem_singleton] at hsp
      rw [hsp]

/-- Witness for C6 (amended): 900 split as a paid 300 plus two unpaid
300s; removing the unpaid part 3 leaves the paid part list exactly as it
was. -/
theorem split_redistribution_witness :
    (removeSplit ⟨900, [⟨300, true, none⟩, ⟨300, false, none⟩, ⟨300, false, none⟩]⟩
        2).splits.filter (fun sp => sp.paid) =
      (⟨900, [⟨300, true, none⟩, ⟨300, false, none⟩, ⟨300, false, none⟩]⟩ :
        SplitState).splits.filter (fun sp => sp.paid) :=
  (split_redistribution _ 2 (by decide) (by decide) (by decide)).1

/-- C9: the split count starts at 1, adding a split is refused at 5,
removing one is refused at 1, and every add/remove/update operation
keeps the count between 1 and 5 inclusive. -/
theorem split_count_bounds (t : ℚ) (st : SplitState) (i : Nat) (v : ℚ)
    (h1 : 1 ≤ st.splits.length) (h5 : st.splits.length ≤ 5) :
    (initialSplits t).splits.length = 1 ∧
    (st.splits.length = 5 → addSplit st = st) ∧
    (st.splits.length = 1 → removeSplit st i = st) ∧
    (1 ≤ (addSplit st).splits.length ∧ (addSplit st).splits.length ≤ 5) ∧
    (1 ≤ (removeSplit st i).splits.length ∧
      (removeSplit st i).splits.length ≤ 5) ∧
    (1 ≤ (updateSplitAmount st i v).splits.length ∧
      (updateSplitAmount st i v).splits.length ≤ 5) := by
  have haddlen : (addSplit st).splits.length =
      if 5 ≤ st.splits.length then st.splits.length
      else st.splits.length + 1 := by
    rw [addSplit]; split <;> simp
  have hremlen : (removeSplit st i).splits.length = st.splits.length ∨
      (removeSplit st i).splits.length + 1 = st.splits.length := by
    rw [removeSplit]
    split
    · exact Or.inl rfl
    · split
      · exact Or.inl rfl
      · have hlen := List.length_eraseIdx st.splits i
        simp only []
        split
        · simp only [List.length_map]
          rw [hlen]
          split <;> omega
        · rw [hlen]
          split <;> omega
  have hremst : st.splits.length = 1 → removeSplit st i = st := by
    intro h
    rw [removeSplit, if_pos (by omega)]
  have huplen : (updateSplitAmount st i v).splits.length = st.splits.length := by
    rw [updateSplitAmount]
    cases hg : st.splits.get? i with
    | none => rfl
    | some sp =>
      simp only []
      split
      · rfl
      · split
        · simp [List.enum_length]
        · simp
  have hrem1 : 1 ≤ (removeSplit st i).splits.length := by
    rcases hremlen with h | h
    · omega
    · by_cases h2 : st.splits.length = 1
      · rw [hremst h2]; omega
      · omega
  refine ⟨rfl, ?_, hremst, ?_, ⟨hrem1, ?_⟩, ?_⟩
  · intro h
    rw [addSplit, if_pos (by omega)]
  · rw [haddlen]; split <;> omega
  · rcases hremlen with h | h <;> omega
  · rw [huplen]; exact ⟨h1, h5⟩

/-- Witness for C9: a freshly opened modal over a 750 total has exactly
one split, and adding then looking at the bounds stays within 1..5. -/
theorem split_count_bounds_witness :
    (initialSplits (750 : ℚ)).splits.length = 1 :=
  (split_count_bounds 750 (initialSplits 750) 0 10 (by decide) (by decide)).1

/-! ### Session-route lemmas and theorems -/

/-- In the success case, the session row after `POST /:id/end` carries
exactly the charge computed by the handler. -/
theorem endRoute_totalAmount (w : World) (id : Nat) (s : Session) (st : Station)
    (hs : getSession w id = some s) (hact : s.status = .ACTIVE)
    (hst : getStation w s.stationId = some st) :
    (getSession (endSessionRoute w id).2 id).map Session.totalAmount =
      some (some (computeCharge s.sessionType st.ratePerGame st.ratePerHour
        (w.nowMs - s.startTimeMs))) := by
  have hsid : s.id = id := by simpa using List.find?_some hs
  have hs' : w.sessions.find? (fun t => t.id = id) = some s := hs
  have hfind := find?_map_update (fun t => t.id = id)
    (fun _ => endUpdatedSession w s (computeCharge s.sessionType st.ratePerGame
      st.ratePerHour (w.nowMs - s.startTimeMs)))
    (fun a _ => hsid) w.sessions s hs'
  unfold endSessionRoute endSessionStore
  rw [hs]
  simp only [hact, ne_eq, not_true_eq_false, if_false, ite_false]
  rw [hst]
  simp only [getSession, createPaymentStore]
  rw [hfind]
  rfl

/-- C2: creating a session on an existing station whose status is not
`AVAILABLE` answers `Station is not available` and returns the state
unchanged — no session row, no station change, no stats change. -/
theorem start_unavailable_no_mutation (w : World) (req : InsertSession)
    (st : Station) (hst : getStation w req.stationId = some st)
    (hun : st.status ≠ .AVAILABLE) :
    startSessionRoute w req = (.stationUnavailable, w) := by
  unfold startSessionRoute
  rw [hst]
  simp [hun]

/-- Witness for C2: a one-station world in maintenance; the start request
is refused and the world is untouched. -/
theorem start_unavailable_no_mutation_witness :
    startSessionRoute
        ⟨[⟨1, .MAINTENANCE, 200, none, none, none⟩], [], [], [], [], 0, 0⟩
        ⟨1, 1, .HOURLY⟩ =
      (.stationUnavailable,
        ⟨[⟨1, .MAINTENANCE, 200, none, none, none⟩], [], [], [], [], 0, 0⟩) :=
  start_unavailable_no_mutation _ _ ⟨1, .MAINTENANCE, 200, none, none, none⟩
    (by decide) (by decide)

/-- C8: ending a `FIXED` session writes `totalAmount = station.ratePerGame`,
and the computed `FIXED` charge does not depend on the elapsed time. -/
theorem fixed_session_charge (w : World) (id : Nat) (s : Session)
    (st : Station) (r : Int) (hs : getSession w id = some s)
    (hact : s.status = .ACTIVE) (hty : s.sessionType = .FIXED)
    (hst : getStation w s.stationId = some st)
    (hr : st.ratePerGame = some r) :
    (getSession (endSessionRoute w id).2 id).map Session.totalAmount =
      some (some r) ∧
    (∀ e e' : Nat, computeCharge .FIXED st.ratePerGame st.ratePerHour e =
      computeCharge .FIXED st.ratePerGame st.ratePerHour e') := by
  constructor
  · rw [endRoute_totalAmount w id s st hs hact hst, hty]
    simp [computeCharge, hr]
  · intro e e'
    rfl

/-- Witness for C8: a `FIXED` session on a station with `ratePerGame = 40`
ends with `totalAmount = 40`. -/
theorem fixed_session_charge_witness :
    (getSession (endSessionRoute
        ⟨[⟨1, .ACTIVE, 200, some 40, none, none⟩],
         [⟨1, 1, 1, .FIXED, 0, none, none, .ACTIVE, none⟩],
         [], [], [], 500000, 0⟩ 1).2 1).map Session.totalAmount =
      some (some 40) :=
  (fixed_session_charge _ 1 ⟨1, 1, 1, .FIXED, 0, none, none, .ACTIVE, none⟩
    ⟨1, .ACTIVE, 200, some 40, none, none⟩ 40
    (by decide) (by decide) (by decide) (by decide) (by decide)).1

/-- Counterexample to C1 as stated: ending an `HOURLY` session after
exactly 61 elapsed minutes at rate 200/hr yields `totalAmount = 204`,
not 400 — the handler takes `Math.ceil(durationInHours * ratePerHour)`,
the ceiling of the product, not the ceiling of the hours times the
rate. -/
theorem hourly_charge_counterexample :
    (getSession (endSessionRoute
        ⟨[⟨1, .ACTIVE, 200, none, none, none⟩],
         [⟨1, 1, 1, .HOURLY, 0, none, none, .ACTIVE, none⟩],
         [], [], [], 61 * 60 * 1000, 0⟩ 1).2 1).map Session.totalAmount =
      some (some 204) ∧ (204 : Int) ≠ 400 := by
  constructor
  · rw [endRoute_totalAmount _ 1 ⟨1, 1, 1, .HOURLY, 0, none, none, .ACTIVE, none⟩
      ⟨1, .ACTIVE, 200, none, none, none⟩ (by decide) (by decide) (by decide)]
    norm_num [computeCharge, mathCeil]
    decide
  · decide

/-- C1 amended: for an `HOURLY` session the end handler writes
`totalAmount = ⌈elapsedHours * ratePerHour⌉` — the ceiling is applied to
the product of the fractional elapsed hours and the hourly rate — so 61
elapsed minutes at 200/hr bill as 204 and exactly 60 minutes as 200. -/
theorem hourly_charge_amended (w : World) (id : Nat) (s : Session)
    (st : Station) (hs : getSession w id = some s)
    (hact : s.status = .ACTIVE) (hty : s.sessionType = .HOURLY)
    (hst : getStation w s.stationId = some st) :
    (getSession (endSessionRoute w id).2 id).map Session.totalAmount =
      some (some ⌈(((w.nowMs - s.startTimeMs : Nat) : ℚ) / 3600000) *
        (st.ratePerHour : ℚ)⌉) ∧
    (∀ rpg, computeCharge .HOURLY rpg 200 (61 * 60 * 1000) = 204) ∧
    (∀ rpg, computeCharge .HOURLY rpg 200 (60 * 60 * 1000) = 200) := by
  refine ⟨?_, ?_, ?_⟩
  · rw [endRoute_totalAmount w id s st hs hact hst, hty]
    simp [computeCharge, mathCeil_eq_ceil]
  · intro rpg
    norm_num [computeCharge, mathCeil]
    decide
  · intro rpg
    norm_num [computeCharge, mathCeil]

/-- Witness for C1 (amended): the 61-minute session above ends at 204. -/
theorem hourly_charge_amended_witness :
    (getSession (endSessionRoute
        ⟨[⟨1, .ACTIVE, 200, none, none, none⟩],
         [⟨1, 1, 1, .HOURLY, 0, none, none, .ACTIVE, none⟩],
         [], [], [], 61 * 60 * 1000, 0⟩ 1).2 1).map Session.totalAmount =
      some (some 204) := by
  have h := (hourly_charge_amended
    ⟨[⟨1, .ACTIVE, 200, none, none, none⟩],
     [⟨1, 1, 1, .HOURLY, 0, none, none, .ACTIVE, none⟩],
     [], [], [], 61 * 60 * 1000, 0⟩ 1
    ⟨1, 1, 1, .HOURLY, 0, none, none, .ACTIVE, none⟩
    ⟨1, .ACTIVE, 200, none, none, none⟩
    (by decide) (by decide) (by decide) (by decide)).1
  rw [h]
  norm_num
  rw [← mathCeil_eq_ceil]
  norm_num [mathCeil]
  decide

/-- `storage.endSession` sets the session's station back to `AVAILABLE`
whatever its current status. -/
theorem endStore_station_avail (w : World) (id : Nat) (amt : Int)
    (s : Session) (st0 : Station) (hs : getSession w id = some s)
    (hst : getStation w s.stationId = some st0) :
    (getStation (endSessionStore w id amt).1 s.stationId).map Station.status =
      some .AVAILABLE := by
  have hst' : w.stations.find? (fun t => t.id = s.stationId) = some st0 := hst
  have hfind := find?_map_update (fun t => t.id = s.stationId)
    (fun t => { t with status := .AVAILABLE })
    (fun a ha => ha) w.stations st0 hst'
  unfold endSessionStore
  rw [hs]
  simp only [getStation]
  rw [hfind]
  rfl

/-- C10: ending a session sets its station's status to `AVAILABLE`
unconditionally — in particular a station moved to `MAINTENANCE` by the
maintenance route while the session was running comes back `AVAILABLE`
when the session ends. -/
theorem end_resets_station_status (w : World) (id : Nat) (amt : Int)
    (s : Session) (st0 : Station) (hs : getSession w id = some s)
    (hst : getStation w s.stationId = some st0) :
    ((getStation (endSessionStore w id amt).1 s.stationId).map Station.status =
      some .AVAILABLE) ∧
    (∀ reason eta,
      (getStation (endSessionStore
          (setMaintenanceRoute w s.stationId reason eta).2 id amt).1
        s.stationId).map Station.status = some .AVAILABLE) := by
  refine ⟨endStore_station_avail w id amt s st0 hs hst, ?_⟩
  intro reason eta
  have hst' : w.stations.find? (fun t => t.id = s.stationId) = some st0 := hst
  have hfind := find?_map_update (fun t => t.id = s.stationId)
    (fun t => { t with status := .MAINTENANCE,
                        maintenanceReason := some reason, maintenanceEta := eta })
    (fun a ha => ha) w.stations st0 hst'
  unfold setMaintenanceRoute
  rw [hst]
  simp only []
  exact endStore_station_avail _ id amt s _ hs hfind

/-- Witness for C10: a running session whose station sits in
`MAINTENANCE`; ending the session leaves the station `AVAILABLE`. -/
theorem end_resets_station_status_witness :
    (getStation (endSessionStore
        ⟨[⟨1, .MAINTENANCE, 200, none, none, none⟩],
         [⟨1, 1, 1, .HOURLY, 0, none, none, .ACTIVE, none⟩],
         [], [], [], 600000, 0⟩ 1 10).1 1).map Station.status =
      some .AVAILABLE :=
  (end_resets_station_status _ 1 10
    ⟨1, 1, 1, .HOURLY, 0, none, none, .ACTIVE, none⟩
    ⟨1, .MAINTENANCE, 200, none, none, none⟩
    (by decide) (by decide)).1

/-- C3: starting a session bumps today's `activeStations` and
`activeUsers` by exactly 1, creating the row with the other counters at
zero when absent; ending a session on a day whose row exists applies
`max(0, ·-1)` to both counters (a decrease of exactly 1 whenever they
were ≥ 1, and never below 0), adds the session's total to
`totalRevenue`, and adds `duration/60` to `totalHours`. -/
theorem daily_stats_adjustment (w : World) (ins : InsertSession) (id : Nat)
    (s : Session) (amt : Int) (ex : Stat) :
    (getTodayStat w = some ex →
      getTodayStat (createSessionStore w ins).1 =
        some { ex with activeStations := ex.activeStations + 1,
                       activeUsers := ex.activeUsers + 1 }) ∧
    (getTodayStat w = none →
      getTodayStat (createSessionStore w ins).1 =
        some { date := w.today, totalRevenue := 0, totalHours := 0,
               activeStations := 1, activeUsers := 1 }) ∧
    (getSession w id = some s → getTodayStat w = some ex →
      getTodayStat (endSessionStore w id amt).1 =
        some { ex with
          activeStations := max 0 (ex.activeStations - 1),
          activeUsers := max 0 (ex.activeUsers - 1),
          totalRevenue := ex.totalRevenue + amt,
          totalHours := ex.totalHours + ((endDurationMin w s : ℚ)) / 60 } ∧
      (1 ≤ ex.activeStations →
        max 0 (ex.activeStations - 1) = ex.activeStations - 1) ∧
      (1 ≤ ex.activeUsers →
        max 0 (ex.activeUsers - 1) = ex.activeUsers - 1) ∧
      (0 : Int) ≤ max 0 (ex.activeStations - 1) ∧
      (0 : Int) ≤ max 0 (ex.activeUsers - 1)) := by
  refine ⟨?_, ?_, ?_⟩
  · intro hex
    have hex' : w.stats.find? (fun t => t.date = w.today) = some ex := hex
    have hfind := find?_map_update (fun t => t.date = w.today)
      (fun t => { t with activeStations := ex.activeStations + 1,
                          activeUsers := ex.activeUsers + 1 })
      (fun a ha => ha) w.stats ex hex'
    unfold createSessionStore
    rw [hex]
    simp only [getTodayStat]
    rw [hfind]
  · intro hnone
    have hnone' : w.stats.find? (fun t => t.date = w.today) = none := hnone
    unfold createSessionStore
    rw [hnone]
    simp only [getTodayStat]
    rw [List.find?_append, hnone']
    simp
  · intro hs hex
    have hex' : w.stats.find? (fun t => t.date = w.today) = some ex := hex
    have hfind := find?_map_update (fun t => t.date = w.today)
      (fun t => { t with
          activeStations := max 0 (ex.activeStations - 1),
          activeUsers := max 0 (ex.activeUsers - 1),
          totalRevenue := ex.totalRevenue + amt,
          totalHours := ex.totalHours + ((endDurationMin w s : ℚ)) / 60 })
      (fun a ha => ha) w.stats ex hex'
    unfold endSessionStore
    rw [hs, hex]
    simp only [getTodayStat]
    rw [hfind]
    exact ⟨rfl, fun h => max_eq_right (by omega),
      fun h => max_eq_right (by omega), le_max_left _ _, le_max_left _ _⟩

/-- Witness for C3: starting a session on a day with no stats row yet
creates today's row with both active counters at 1 and zero
revenue/hours. -/
theorem daily_stats_adjustment_witness :
    getTodayStat (createSessionStore
        ⟨[⟨1, .AVAILABLE, 200, none, none, none⟩], [], [], [], [], 0, 0⟩
        ⟨1, 1, .HOURLY⟩).1 = some ⟨0, 0, 0, 1, 1⟩ :=
  (daily_stats_adjustment
    ⟨[⟨1, .AVAILABLE, 200, none, none, none⟩], [], [], [], [], 0, 0⟩
    ⟨1, 1, .HOURLY⟩ 1 ⟨1, 1, 1, .HOURLY, 0, none, none, .ACTIVE, none⟩ 0
    ⟨0, 0, 0, 0, 0⟩).2.1 (by decide)

/-- C4 evaluation: the cash-payment controller computes
`Math.floor(amount/100)` — 0 points for 99, 2 points for 250 — but
`storage.awardLoyaltyPoints` is a placeholder that returns the world
unchanged, so no customer's stored balance ever changes. -/
theorem award_loyalty_placeholder (w : World) (tid : Nat) (amount : ℚ)
    (uid : Option Nat) (userId : Nat) (pts : Int) :
    (processCashPayment w tid amount uid).2.customers = w.customers ∧
    (awardLoyaltyPoints w userId pts).1 = w ∧
    mathFloor ((99 : ℚ) / 100) = 0 ∧
    mathFloor ((250 : ℚ) / 100) = 2 := by
  refine ⟨?_, rfl, ?_, ?_⟩
  · unfold processCashPayment
    cases hg : getSession w tid with
    | none => rfl
    | some s =>
      cases uid with
      | none => rfl
      | some u => rfl
  · norm_num [mathFloor]
    decide
  · norm_num [mathFloor]
    decide

end POS
